import Mathlib

/-!
Verification of the semantic / ATS scoring subsystem of the AI resume
analyzer (modules `semantic/cache.py`, `semantic/embeddings.py`,
`semantic/semantic_ats.py`, `semantic/hybrid_ats.py`,
`semantic/skill_gap.py`, `semantic/semantic_skill_gap.py`,
`semantic/skill_matcher.py`, and the constants of `config.py`).

Modelling conventions:
  * Python numbers (ints and floats) are modelled as exact rationals `ℚ`;
    `int(x)` (truncation toward zero) is `pyInt`, `round(x, d)` (round half
    to even) is `pyRoundTo d`.
  * An embedding vector is a list of rationals; the sentence-transformer
    backend is an abstract `Model : List String → Except String (List Vec)`
    (a failing model is one returning `.error`, corresponding to a raised
    model-unavailable exception).  The embedding cache is semantically
    transparent for the scorers (a hit returns exactly the previously
    computed vector), so the scorer embeddings consult the model directly;
    the cache itself is modelled separately as an explicit state machine.
  * Python exceptions are `Except String`; re-raising with a message prefix
    is `Except.mapError`.
  * The md5 content hash of `cache.py` and the cache capacity
    `EMBEDDING_CACHE_SIZE` are parameters (`hash : String → String`,
    `cap : ℕ`) of the cache operations.
-/

/-- Python `int(q)`: truncation toward zero. -/
def pyInt (q : ℚ) : ℤ := if 0 ≤ q then q.floor else q.ceil

/-- Python `s.lower()`: per-character lowercasing. -/
def pyLower (s : String) : String := String.mk (s.data.map Char.toLower)

/-- Round a rational to the nearest integer, ties to even
(the rounding mode of Python `round`). -/
def roundHalfEven (q : ℚ) : ℤ :=
  let f := q.floor
  let frac := q - (f : ℚ)
  if frac < 1/2 then f
  else if 1/2 < frac then f + 1
  else if f % 2 = 0 then f else f + 1

/-- Python `round(q, d)`: round half to even at `d` decimal places. -/
def pyRoundTo (d : ℕ) (q : ℚ) : ℚ := (roundHalfEven (q * 10 ^ d) : ℚ) / 10 ^ d

/-- Whether `l₁` occurs as a contiguous sublist of `l₂`. -/
def containsSeq [BEq α] (l₁ : List α) : List α → Bool
  | [] => l₁.isEmpty
  | c :: t => l₁.isPrefixOf (c :: t) || containsSeq l₁ t

/-- Python `needle in hay` on strings: substring containment. -/
def strIn (needle hay : String) : Bool := containsSeq needle.toList hay.toList

/-- An embedding vector (`np.ndarray` of floats). -/
abbrev Vec := List ℚ

/-- Constant `config.EMBEDDING_CACHE_SIZE`. -/
def EMBEDDING_CACHE_SIZE : ℕ := 1000

/-- Constant `config.ENABLE_CACHE`. -/
def ENABLE_CACHE : Bool := true

/-- Constant `config.SEMANTIC_SIMILARITY_THRESHOLD = 0.55`. -/
def SEMANTIC_SIMILARITY_THRESHOLD : ℚ := 11/20

/-- Constant `config.KEYWORD_WEIGHT = 0.4`. -/
def KEYWORD_WEIGHT : ℚ := 2/5

/-- Constant `config.SEMANTIC_WEIGHT = 0.6`. -/
def SEMANTIC_WEIGHT : ℚ := 3/5

/-- The abstract sentence-embedding backend: `model.encode` on a batch of
texts, which either returns one vector per text or raises (model
unavailable / inference failure). -/
abbrev Model := List String → Except String (List Vec)

/-- A model is well formed when a successful `encode` returns exactly one
vector per input text (always true of the real sentence-transformer). -/
def ModelWF (m : Model) : Prop :=
  ∀ ts vs, m ts = .ok vs → vs.length = ts.length

/-- Model of `embeddings.embed_text` on a list of texts (cache elided, see header):
empty input short-circuits to an empty array before the model is touched;
a model exception is re-raised as `Embedding generation failed: ...`. -/
def embed_list (m : Model) (ts : List String) : Except String (List Vec) :=
  if ts.isEmpty then .ok []
  else (m ts).mapError (fun e => "Embedding generation failed: " ++ e)

/-- Model of `embeddings.embed_text` on a single string: embeds the one-element
batch and indexes `result[0]`. -/
def embed_single (m : Model) (t : String) : Except String Vec := do
  let vs ← embed_list m [t]
  match vs with
  | v :: _ => pure v
  | [] => .error "IndexError: index 0 is out of bounds"

/-- Model of `embeddings.cosine_similarity` for two 1-d vectors: plain dot product
(the embeddings are already unit-normalized). -/
def cosine_similarity (a b : Vec) : ℚ :=
  ((a.zip b).map (fun p => p.1 * p.2)).sum

/- ### Role taxonomy and keyword scorer (`hybrid_ats.py`) -/

/-- One role's entry of `ats_job_skills.json`: the `core` and `optional`
skill-to-weight mappings (association lists in file order). -/
structure RoleData where
  core : List (String × ℚ)
  optional : List (String × ℚ)
deriving DecidableEq

/-- The parsed contents of `ats_job_skills.json`: role name to role data,
in file order. -/
abbrev AtsData := List (String × RoleData)

/-- Model of `hybrid_ats.load_ats_data`: look the role up, or raise a not-found
error naming the available roles. -/
def load_ats_data (ats : AtsData) (job_role : String) : Except String RoleData :=
  match ats.lookup job_role with
  | some rd => .ok rd
  | none =>
      .error ("Job role " ++ job_role ++ " not found. Available roles: "
        ++ String.intercalate ", " (ats.map Prod.fst))

/-- Model of `hybrid_ats.get_available_job_roles`: the key list of the ATS data. -/
def get_available_job_roles (ats : AtsData) : List String := ats.map Prod.fst

/-- The keyword matching test of `calculate_keyword_ats_score`:
`skill in resume_skills_set or skill in resume_text_lower`. -/
def keywordMatched (resume_skills_set : List String) (resume_text_lower : String)
    (skill : String) : Bool :=
  resume_skills_set.contains skill || strIn skill resume_text_lower

/-- The `details` dict built by `calculate_keyword_ats_score`. -/
structure KeywordDetails where
  matched_core : List String
  matched_optional : List String
  missing_core : List String
  missing_optional : List String
  total_core_skills : ℕ
  total_optional_skills : ℕ
  matched_weight : ℚ
  total_weight : ℚ
deriving DecidableEq

/-- One of the two accumulation loops of `calculate_keyword_ats_score`:
fold over a skill tier, accumulating the matched weight and the matched /
missing name lists. -/
def checkSkills (p : String → Bool) (skills : List (String × ℚ))
    (init : ℚ × List String × List String) : ℚ × List String × List String :=
  skills.foldl
    (fun acc sw =>
      if p sw.1 then (acc.1 + sw.2, acc.2.1 ++ [sw.1], acc.2.2)
      else (acc.1, acc.2.1, acc.2.2 ++ [sw.1]))
    init

/-- Model of `hybrid_ats.calculate_keyword_ats_score`.  Returns the integer score
and the details dict (`none` models the literal empty dict `{}` returned
when the total weight is zero). -/
def calculate_keyword_ats_score (ats : AtsData) (job_role : String)
    (resume_skills : List String) (resume_text : String) :
    Except String (ℤ × Option KeywordDetails) :=
  (do
    let role_data ← load_ats_data ats job_role
    let core_skills := role_data.core
    let optional_skills := role_data.optional
    let total_weight :=
      (core_skills.map Prod.snd).sum + (optional_skills.map Prod.snd).sum
    if total_weight = 0 then
      pure (0, none)
    else
      let resume_skills_set := resume_skills.map pyLower
      let resume_text_lower := pyLower resume_text
      let matchedP := keywordMatched resume_skills_set resume_text_lower
      let rc := checkSkills matchedP core_skills (0, [], [])
      let ro := checkSkills matchedP optional_skills (rc.1, [], [])
      let matched_weight := ro.1
      let score := pyInt (matched_weight / total_weight * 100)
      pure (score, some (KeywordDetails.mk
        rc.2.1 ro.2.1 rc.2.2 ro.2.2
        core_skills.length optional_skills.length matched_weight total_weight))
  ).mapError (fun e => "Keyword ATS scoring failed: " ++ e)

/- ### Semantic scorer (`semantic_ats.py`) -/

/-- The per-skill accumulation loop of `semantic_ats_score`: fold over
`zip(skill_texts, skill_vecs)`, accumulating the gained weight (dict
lookup of the skill's weight) and the `(skill, similarity%)` explanation
list. -/
def semanticGainLoop (weighted_skills : List (String × ℚ)) (resume_vec : Vec)
    (threshold : ℚ) (pairs : List (String × Vec)) : ℚ × List (String × ℚ) :=
  pairs.foldl
    (fun acc p =>
      if threshold ≤ cosine_similarity resume_vec p.2 then
        (acc.1 + ((weighted_skills.lookup p.1).getD 0),
         acc.2 ++ [(p.1, pyRoundTo 1 (cosine_similarity resume_vec p.2 * 100))])
      else acc)
    (0, [])

/-- Model of `semantic_ats.semantic_ats_score`: raises on an empty resume text,
returns `(0, [])` for an empty skill dict, embeds the resume, returns
`(0, [])` for a zero total weight, otherwise embeds all skill names in one
batch and accumulates the weight of every skill whose similarity meets the
threshold; the score is `int(gained / total * 100)`. -/
def semantic_ats_score (m : Model) (resume_text : String)
    (weighted_skills : List (String × ℚ))
    (threshold : ℚ) :
    Except String (ℤ × List (String × ℚ)) :=
  if resume_text = "" then .error "Resume text must be a non-empty string"
  else if weighted_skills.isEmpty then .ok (0, [])
  else
    (do
      let resume_vec ← embed_single m resume_text
      let total_weight := (weighted_skills.map Prod.snd).sum
      if total_weight = 0 then
        pure (0, [])
      else do
        let skill_texts := weighted_skills.map Prod.fst
        let skill_vecs ← embed_list m skill_texts
        let r := semanticGainLoop weighted_skills resume_vec threshold
          (skill_texts.zip skill_vecs)
        let score := if 0 < total_weight then pyInt (r.1 / total_weight * 100) else 0
        pure (score, r.2)
    ).mapError (fun e => "Semantic ATS scoring failed: " ++ e)

/- ### Hybrid scorer (`hybrid_ats.py`) -/

/-- Model of `hybrid_ats.get_score_recommendation`: the four recommendation bands. -/
def get_score_recommendation (score : ℤ) : String :=
  if 80 ≤ score then
    "Excellent! Your resume is highly optimized for ATS systems."
  else if 60 ≤ score then
    "Good! Your resume should pass most ATS systems. Consider adding more relevant skills."
  else if 40 ≤ score then
    "Fair. Your resume needs improvement to reliably pass ATS systems."
  else
    "Low ATS compatibility. Focus on adding core skills and relevant keywords."

/-- The breakdown dict returned by `hybrid_ats_score`. -/
structure Breakdown where
  final_score : ℤ
  keyword_score : ℤ
  semantic_score : ℤ
  weight_keyword : ℚ
  weight_semantic : ℚ
  keyword_details : Option KeywordDetails
  semantic_matches : List (String × ℚ)
  job_role : String
  recommendation : String
deriving DecidableEq

/-- Model of `hybrid_ats.hybrid_ats_score`: validates the resume text, the job
role and the weight sum, runs the keyword scorer and the semantic scorer
on the role's `core` tier, and fuses the scores with
`int(keyword*kw + semantic*sw)`. -/
def hybrid_ats_score (ats : AtsData) (m : Model) (resume_text : String)
    (resume_skills : List String) (job_role : String)
    (keyword_weight : ℚ)
    (semantic_weight : ℚ) :
    Except String (ℤ × Breakdown) :=
  if resume_text = "" then .error "Resume text must be a non-empty string"
  else if ¬ (get_available_job_roles ats).contains job_role then
    .error ("Unsupported job role: " ++ job_role)
  else if 1/100 < |keyword_weight + semantic_weight - 1| then
    .error "Keyword weight and semantic weight must sum to 1.0"
  else
    (do
      let kw ← calculate_keyword_ats_score ats job_role resume_skills resume_text
      let role_data ← load_ats_data ats job_role
      let weighted_skills := role_data.core
      let sem ← semantic_ats_score m resume_text weighted_skills
        SEMANTIC_SIMILARITY_THRESHOLD
      let final_score := pyInt ((kw.1 : ℚ) * keyword_weight + (sem.1 : ℚ) * semantic_weight)
      pure (final_score, Breakdown.mk
        final_score kw.1 sem.1 keyword_weight semantic_weight
        kw.2 sem.2 job_role (get_score_recommendation final_score))
    ).mapError (fun e => "Hybrid ATS scoring failed: " ++ e)

/- ### Skill gap analyzer (`skill_gap.py`) -/

namespace SkillGap

/-- The per-skill partition loop shared by the gap analyzers: fold over
`zip(required_skills, skill_vecs)`, appending `(skill, similarity%)` to
`matched` or the bare skill name to `missing`. -/
def gapLoop (resume_vec : Vec) (threshold : ℚ) (pairs : List (String × Vec)) :
    List (String × ℚ) × List String :=
  pairs.foldl
    (fun acc p =>
      if threshold ≤ cosine_similarity resume_vec p.2 then
        (acc.1 ++ [(p.1, pyRoundTo 1 (cosine_similarity resume_vec p.2 * 100))], acc.2)
      else (acc.1, acc.2 ++ [p.1]))
    ([], [])

/-- Model of `skill_gap.semantic_skill_gap`: returns `([], required_skills)` for an
empty resume text or skill list, embeds the resume and all skills, and
partitions the skills by threshold; every raised error (including a model
failure) is caught and the `([], required_skills)` default returned. -/
def semantic_skill_gap (m : Model) (resume_text : String)
    (required_skills : List String)
    (threshold : ℚ) :
    List (String × ℚ) × List String :=
  if resume_text = "" ∨ required_skills.isEmpty then ([], required_skills)
  else
    match (do
      let resume_vec ← embed_single m resume_text
      let skill_vecs ← embed_list m required_skills
      pure (gapLoop resume_vec threshold (required_skills.zip skill_vecs)) :
        Except String (List (String × ℚ) × List String)) with
    | .ok r => r
    | .error _ => ([], required_skills)

end SkillGap

/- ### Older skill gap module (`semantic_skill_gap.py`) -/

namespace SemanticSkillGapV0

/-- Model of `semantic_skill_gap.semantic_skill_gap`: no input validation and no
exception handler; embeds `[resume_text]` and indexes `[0]`, embeds the
skills, and partitions by threshold, propagating any model error. -/
def semantic_skill_gap (m : Model) (resume_text : String)
    (required_skills : List String) (threshold : ℚ) :
    Except String (List (String × ℚ) × List String) := do
  let vs ← embed_list m [resume_text]
  let resume_vec ← match vs with
    | v :: _ => pure v
    | [] => Except.error "IndexError: index 0 is out of bounds"
  let skill_vecs ← embed_list m required_skills
  pure (SkillGap.gapLoop resume_vec threshold (required_skills.zip skill_vecs))

end SemanticSkillGapV0

/- ### Buggy skill matcher (`skill_matcher.py`) -/

namespace SkillMatcher

/-- Insertion into a list sorted descending by the second component
(models Python `sorted(..., key=lambda x: x[1], reverse=True)`). -/
def insertDesc (x : ℚ × ℚ) : List (ℚ × ℚ) → List (ℚ × ℚ)
  | [] => [x]
  | y :: ys => if y.2 < x.2 then x :: y :: ys else y :: insertDesc x ys

/-- Sort a result list descending by similarity. -/
def sortBySimDesc (l : List (ℚ × ℚ)) : List (ℚ × ℚ) :=
  l.foldr insertDesc []

/-- Model of `skill_matcher.semantic_match_skills`, embedded as written in the
source: the loop runs over `zip(resume_vec, skill_vecs)` — pairing the
NUMERIC COMPONENTS of the resume embedding with the skill vectors — and
on any above-threshold similarity executes `results.append(skill, ...)`,
a two-argument `list.append` call, which raises a `TypeError`. -/
def semantic_match_skills (m : Model) (resume_text : String)
    (required_skills : List String) (threshold : ℚ) :
    Except String (List (ℚ × ℚ)) := do
  let vs ← embed_list m [resume_text]
  let resume_vec ← match vs with
    | v :: _ => pure v
    | [] => Except.error "IndexError: index 0 is out of bounds"
  let skill_vecs ← embed_list m required_skills
  let results ← (resume_vec.zip skill_vecs).foldlM
    (fun (acc : List (ℚ × ℚ)) p =>
      if threshold ≤ cosine_similarity resume_vec p.2 then
        Except.error "TypeError: append() takes exactly one argument (2 given)"
      else pure acc)
    []
  pure (sortBySimDesc results)

end SkillMatcher

/- ### Embedding cache (`cache.py`) -/

/-- Python `OrderedDict` membership: some entry has the key. -/
def odMem (k : String) (d : List (String × Vec)) : Bool := d.any (fun p => p.1 == k)

/-- Python `OrderedDict` lookup: the value of the first entry with the key. -/
def odLookup (k : String) (d : List (String × Vec)) : Option Vec :=
  (d.find? (fun p => p.1 == k)).map Prod.snd

/-- Python `OrderedDict.move_to_end(k)`: remove the entry for `k` and re-append
it at the most-recently-used end (a no-op when the key is absent; the
source only calls it after a membership check). -/
def odMoveToEnd (k : String) (d : List (String × Vec)) : List (String × Vec) :=
  match odLookup k d with
  | some v => d.eraseP (fun p => p.1 == k) ++ [(k, v)]
  | none => d

/-- Python `OrderedDict` assignment `d[k] = v`: update the existing entry in
place (keeping its position), else append a new entry at the end. -/
def odAssign (k : String) (v : Vec) (d : List (String × Vec)) : List (String × Vec) :=
  if odMem k d then d.map (fun p => if p.1 == k then (k, v) else p)
  else d ++ [(k, v)]

/-- Python `pop(next(iter(d)))`: drop the oldest (first) entry.  In a dict the
keys are distinct, so popping the first key removes exactly the head. -/
def odPopFirst (d : List (String × Vec)) : List (String × Vec) := d.tail

/-- The module-level mutable state of `cache.py`: the ordered
`_embedding_cache` (head = least recently used) and the `_cache_stats`
counters. -/
structure CacheState where
  entries : List (String × Vec)
  hits : ℕ
  misses : ℕ
  sizeStat : ℕ
deriving DecidableEq

/-- The initial (cleared) cache state. -/
def initCache : CacheState := ⟨[], 0, 0, 0⟩

/-- Model of `cache.get_cached_embedding`: hash the text; on a hit, move the entry
to the most-recently-used end, bump the hit counter and return the stored
embedding; on a miss, bump the miss counter and return `None`. -/
def get_cached_embedding (hash : String → String) (text : String)
    (s : CacheState) : Option Vec × CacheState :=
  if ENABLE_CACHE then
    let key := hash text
    if odMem key s.entries then
      let entries := odMoveToEnd key s.entries
      (odLookup key entries, { s with entries := entries, hits := s.hits + 1 })
    else
      (none, { s with misses := s.misses + 1 })
  else (none, s)

/-- Model of `cache.set_cached_embedding`: hash the text; if the cache holds at
least `cap` entries, pop the least-recently-used (first) entry; then
assign the key and record the new size. -/
def set_cached_embedding (hash : String → String) (cap : ℕ) (text : String)
    (emb : Vec) (s : CacheState) : CacheState :=
  if ENABLE_CACHE then
    let key := hash text
    let entries1 := if cap ≤ s.entries.length then odPopFirst s.entries else s.entries
    let entries2 := odAssign key emb entries1
    { s with entries := entries2, sizeStat := entries2.length }
  else s

/-- Model of `cache.clear_cache`: empty the store and reset the counters. -/
def clear_cache (_s : CacheState) : CacheState := initCache

/-- The stats dict of `cache.get_cache_stats`. -/
structure CacheStats where
  size : ℕ
  max_size : ℕ
  hits : ℕ
  misses : ℕ
  hit_rate : ℚ
  total_requests : ℕ
  enabled : Bool
deriving DecidableEq

/-- Model of `cache.get_cache_stats`: `hit_rate = round(hits / total * 100, 2)`
when any request was made, else `0`. -/
def get_cache_stats (cap : ℕ) (s : CacheState) : CacheStats :=
  let total_requests := s.hits + s.misses
  let hit_rate : ℚ :=
    if 0 < total_requests then (s.hits : ℚ) / (total_requests : ℚ) * 100 else 0
  CacheStats.mk s.entries.length cap s.hits s.misses
    (pyRoundTo 2 hit_rate) total_requests ENABLE_CACHE

/-- One observable cache operation. -/
inductive CacheOp where
  | get (text : String)
  | set (text : String) (emb : Vec)
  | clear
deriving DecidableEq

/-- Whether an operation is a `get` request. -/
def CacheOp.isGet : CacheOp → Bool
  | .get _ => true
  | _ => false

/-- Apply one operation to the module-level cache state. -/
def applyOp (hash : String → String) (cap : ℕ) (s : CacheState) :
    CacheOp → CacheState
  | .get t => (get_cached_embedding hash t s).2
  | .set t e => set_cached_embedding hash cap t e s
  | .clear => clear_cache s

/-- Run a sequence of cache operations from the initial state. -/
def runOps (hash : String → String) (cap : ℕ) (ops : List CacheOp) : CacheState :=
  ops.foldl (applyOp hash cap) initCache

/- ### Class-based cache (`cache.EmbeddingCache`) -/

/-- The state of one `cache.EmbeddingCache` instance. -/
structure EmbeddingCache where
  max_size : ℕ
  cache : List (String × Vec)
  hits : ℕ
  misses : ℕ
deriving DecidableEq

/-- Model of `EmbeddingCache.set`: if at capacity, `popitem(last=False)` drops the
least-recently-used entry, then the key is assigned. -/
def EmbeddingCache.set (hash : String → String) (c : EmbeddingCache)
    (text : String) (emb : Vec) : EmbeddingCache :=
  let key := hash text
  let cache1 := if c.max_size ≤ c.cache.length then odPopFirst c.cache else c.cache
  { c with cache := odAssign key emb cache1 }

/-- Model of `EmbeddingCache.hit_rate`: percentage of hits among all requests, `0`
when no requests were made. -/
def EmbeddingCache.hit_rate (c : EmbeddingCache) : ℚ :=
  let total := c.hits + c.misses
  if 0 < total then (c.hits : ℚ) / (total : ℚ) * 100 else 0

deriving instance DecidableEq for Except

/- ### Spec-side definitions and helper lemmas -/

/-- Total taxonomy weight of a role: `sum(core) + sum(optional)`. -/
def totalWeight (rd : RoleData) : ℚ :=
  (rd.core.map Prod.snd).sum + (rd.optional.map Prod.snd).sum

/-- Spec-side matched weight: the summed weight of every core and optional
skill that is in the lowercased resume-skill set or a substring of the
lowercased resume text. -/
def specMatchedWeight (resume_skills : List String) (resume_text : String)
    (rd : RoleData) : ℚ :=
  (((rd.core ++ rd.optional).filter
      (fun sw => keywordMatched (resume_skills.map pyLower) (pyLower resume_text) sw.1)).map
    Prod.snd).sum

theorem checkSkills_eq (p : String → Bool) :
    ∀ (skills : List (String × ℚ)) (init : ℚ × List String × List String),
      checkSkills p skills init =
        (init.1 + ((skills.filter (fun sw => p sw.1)).map Prod.snd).sum,
         init.2.1 ++ (skills.filter (fun sw => p sw.1)).map Prod.fst,
         init.2.2 ++ (skills.filter (fun sw => !p sw.1)).map Prod.fst)
  | [], init => by simp [checkSkills]
  | sw :: t, init => by
    have ih := checkSkills_eq p t
    by_cases h : p sw.1
    · simp only [checkSkills, List.foldl_cons, if_pos h]
      rw [show t.foldl _ _ = checkSkills p t _ from rfl, ih]
      simp [List.filter_cons, h, add_assoc]
    · simp only [checkSkills, List.foldl_cons, if_neg h]
      rw [show t.foldl _ _ = checkSkills p t _ from rfl, ih]
      simp [List.filter_cons, h]

theorem Rat_floor_eq_intFloor (q : ℚ) : q.floor = ⌊q⌋ := rfl

theorem pyInt_eq_floor (q : ℚ) (h : 0 ≤ q) : pyInt q = ⌊q⌋ := by
  rw [pyInt, if_pos h, Rat_floor_eq_intFloor]

theorem Rat_ceil_intCast (k : ℤ) : ((k : ℚ)).ceil = k := by
  rw [Rat.ceil]
  simp

theorem pyInt_intCast (k : ℤ) : pyInt (k : ℚ) = k := by
  rw [pyInt]
  split
  · rw [Rat_floor_eq_intFloor]; exact Int.floor_intCast k
  · exact Rat_ceil_intCast k

theorem exceptBind_ok {α β : Type} (a : α) (f : α → Except String β) :
    (Except.ok a : Except String α) >>= f = f a := rfl

theorem exceptBind_error {α β : Type} (e : String) (f : α → Except String β) :
    (Except.error e : Except String α) >>= f = Except.error e := rfl

theorem exceptPure {α : Type} (a : α) : (pure a : Except String α) = Except.ok a := rfl

theorem exceptMapError_ok {α : Type} (f : String → String) (a : α) :
    Except.mapError f (Except.ok a : Except String α) = Except.ok a := rfl

theorem exceptMapError_error {α : Type} (f : String → String) (e : String) :
    Except.mapError f (Except.error e : Except String α) = Except.error (f e) := rfl

theorem sum_filter_nonneg (l : List (String × ℚ)) (p : String × ℚ → Bool)
    (h : ∀ x ∈ l, (0:ℚ) ≤ x.2) : 0 ≤ ((l.filter p).map Prod.snd).sum := by
  apply List.sum_nonneg
  intro w hw
  rcases List.mem_map.mp hw with ⟨x, hx, rfl⟩
  exact h x (List.mem_of_mem_filter hx)

/-- C1: for a role present in the taxonomy whose weights are nonnegative,
the keyword ATS score is `floor(100 * matched_weight / total_weight)`
whenever the total weight is positive — where a skill counts toward
`matched_weight` exactly when it is in the lowercased resume-skill set or
a substring of the lowercased resume text — and a zero total weight yields
score `0` with the empty breakdown (the zero-weight early return precedes
the division, so no division by zero is evaluated). -/
theorem keyword_score_formula (ats : AtsData) (job_role : String)
    (resume_skills : List String) (resume_text : String) (rd : RoleData)
    (hlook : ats.lookup job_role = some rd)
    (hpos : ∀ p ∈ rd.core ++ rd.optional, (0:ℚ) ≤ p.2) :
    (0 < totalWeight rd →
      ∃ d, calculate_keyword_ats_score ats job_role resume_skills resume_text
        = .ok (⌊100 * specMatchedWeight resume_skills resume_text rd / totalWeight rd⌋,
            some d)) ∧
    (totalWeight rd = 0 →
      calculate_keyword_ats_score ats job_role resume_skills resume_text
        = .ok (0, none)) := by
  have hT : ((rd.core.map Prod.snd).sum + (rd.optional.map Prod.snd).sum) = totalWeight rd := rfl
  have hW : (checkSkills
      (keywordMatched (resume_skills.map pyLower) (pyLower resume_text)) rd.optional
      ((checkSkills (keywordMatched (resume_skills.map pyLower) (pyLower resume_text))
        rd.core (0, [], [])).1, [], [])).1
      = specMatchedWeight resume_skills resume_text rd := by
    rw [checkSkills_eq, checkSkills_eq]
    simp [specMatchedWeight, List.filter_append]
  constructor
  · intro h
    simp only [calculate_keyword_ats_score, load_ats_data, hlook, exceptBind_ok]
    rw [hT, if_neg (ne_of_gt h), hW]
    have h0 : (0:ℚ) ≤ specMatchedWeight resume_skills resume_text rd :=
      sum_filter_nonneg _ _ hpos
    rw [pyInt_eq_floor _ (mul_nonneg (div_nonneg h0 h.le) (by norm_num))]
    have hc : specMatchedWeight resume_skills resume_text rd / totalWeight rd * 100
        = 100 * specMatchedWeight resume_skills resume_text rd / totalWeight rd := by
      ring
    rw [hc]
    exact ⟨_, rfl⟩
  · intro h
    simp only [calculate_keyword_ats_score, load_ats_data, hlook, exceptBind_ok]
    rw [hT, if_pos h]
    rfl

/- ### Concrete sample data for the closed evaluations -/

/-- A sample taxonomy role: core `python`/`sql` at weight 50 each. -/
def sampleRole : RoleData := ⟨[("python", 50), ("sql", 50)], []⟩

/-- A sample parsed `ats_job_skills.json` with one role. -/
def sampleAts : AtsData := [("Data Analyst", sampleRole)]

/-- A role with all weights zero (degenerate taxonomy). -/
def zeroRole : RoleData := ⟨[("python", 0)], []⟩

/-- A taxonomy holding only the degenerate zero-weight role. -/
def zeroAts : AtsData := [("Empty Role", zeroRole)]

/-- A toy embedding backend mapping every text to the unit vector `[1]`. -/
def unitModel : Model := fun ts => .ok (ts.map (fun _ => [1]))

/-- An unavailable embedding backend: every call raises. -/
def failModel : Model := fun _ => .error "model unavailable"

/-- Witness for C1: at the sample taxonomy the keyword scorer returns
exactly the floor formula. -/
theorem keyword_score_formula_witness :
    (0:ℚ) < totalWeight sampleRole ∧
    (∃ d, calculate_keyword_ats_score sampleAts "Data Analyst" ["python"]
        "experienced python developer"
      = .ok (⌊100 * specMatchedWeight ["python"] "experienced python developer" sampleRole
          / totalWeight sampleRole⌋, some d)) := by
  have h : (0:ℚ) < totalWeight sampleRole := of_decide_eq_true (by with_unfolding_all rfl)
  exact ⟨h, (keyword_score_formula sampleAts "Data Analyst" ["python"]
    "experienced python developer" sampleRole
    (of_decide_eq_true (by with_unfolding_all rfl))
    (of_decide_eq_true (by with_unfolding_all rfl))).1 h⟩

/-- C2: whenever `hybrid_ats_score` with `keyword_weight = 1` and
`semantic_weight = 0` returns a score, that score equals the keyword score
`calculate_keyword_ats_score` computes on the same inputs. -/
theorem hybrid_keyword_only (ats : AtsData) (m : Model) (resume_text : String)
    (resume_skills : List String) (job_role : String) (s : ℤ) (bd : Breakdown)
    (h : hybrid_ats_score ats m resume_text resume_skills job_role 1 0 = .ok (s, bd)) :
    ∃ d, calculate_keyword_ats_score ats job_role resume_skills resume_text
      = .ok (s, d) := by
  unfold hybrid_ats_score at h
  split_ifs at h
  rcases hk : calculate_keyword_ats_score ats job_role resume_skills resume_text
    with e | pr
  · simp only [hk, exceptBind_error, exceptMapError_error] at h
    exact Except.noConfusion h
  · simp only [hk, exceptBind_ok] at h
    rcases hl : load_ats_data ats job_role with e2 | rd
    · simp only [hl, exceptBind_error, exceptMapError_error] at h
      exact Except.noConfusion h
    · simp only [hl, exceptBind_ok] at h
      rcases hs : semantic_ats_score m resume_text rd.core
          SEMANTIC_SIMILARITY_THRESHOLD with e3 | sem
      · simp only [hs, exceptBind_error, exceptMapError_error] at h
        exact Except.noConfusion h
      · simp only [hs, exceptBind_ok, exceptPure, exceptMapError_ok,
          Except.ok.injEq, Prod.mk.injEq, mul_one, mul_zero, add_zero] at h
        obtain ⟨h1, h2⟩ := h
        refine ⟨pr.2, ?_⟩
        rw [show s = pr.1 by rw [← h1, pyInt_intCast]]

/-- Witness for C2 at a concrete taxonomy, resume and toy model. -/
theorem hybrid_keyword_only_witness :
    ∃ d, calculate_keyword_ats_score sampleAts "Data Analyst" ["python"]
        "python developer" = .ok (50, d) :=
  hybrid_keyword_only sampleAts unitModel "python developer" ["python"]
    "Data Analyst" 50
    (Breakdown.mk 50 50 100 1 0
      (some (KeywordDetails.mk ["python"] [] ["sql"] [] 2 0 50 100))
      [("python", 100), ("sql", 100)] "Data Analyst" (get_score_recommendation 50))
    (of_decide_eq_true (by with_unfolding_all rfl))

/-- Counterexample to C3: an empty resume text is not handled by a
zero/empty result — both `semantic_ats_score` and `hybrid_ats_score`
raise `ValueError("Resume text must be a non-empty string")` on it. -/
theorem empty_text_raises :
    semantic_ats_score unitModel "" [("python", 50)] (11/20)
      = .error "Resume text must be a non-empty string" ∧
    hybrid_ats_score sampleAts unitModel "" ["python"] "Data Analyst" (2/5) (3/5)
      = .error "Resume text must be a non-empty string" :=
  of_decide_eq_true (by with_unfolding_all rfl)

/-- C3 (amended): an empty weighted-skill dict and a zero total taxonomy
weight return zero/empty results rather than raising — `semantic_ats_score`
returns `(0, [])` on an empty skill dict without touching the model, and
`(0, [])` on a zero total weight once the resume embedding succeeded;
`calculate_keyword_ats_score` returns `(0, {})` on a zero total weight.
(An empty resume text, by contrast, raises; see the counterexample.) -/
theorem degenerate_inputs_zero_result :
    (∀ (m : Model) (text : String) (thr : ℚ), text ≠ "" →
      semantic_ats_score m text [] thr = .ok (0, [])) ∧
    (∀ (ats : AtsData) (role : String) (skills : List String) (text : String)
        (rd : RoleData), ats.lookup role = some rd → totalWeight rd = 0 →
      calculate_keyword_ats_score ats role skills text = .ok (0, none)) ∧
    (∀ (m : Model) (text : String) (ws : List (String × ℚ)) (thr : ℚ) (v : Vec),
        text ≠ "" → ws ≠ [] → embed_single m text = .ok v →
        (ws.map Prod.snd).sum = 0 →
      semantic_ats_score m text ws thr = .ok (0, [])) := by
  refine ⟨?_, ?_, ?_⟩
  · intro m text thr htext
    unfold semantic_ats_score
    rw [if_neg htext]
    rfl
  · intro ats role skills text rd hlook h0
    have hT : ((rd.core.map Prod.snd).sum + (rd.optional.map Prod.snd).sum)
        = totalWeight rd := rfl
    simp only [calculate_keyword_ats_score, load_ats_data, hlook, exceptBind_ok]
    rw [hT, if_pos h0]
    rfl
  · intro m text ws thr v htext hws hemb h0
    unfold semantic_ats_score
    rw [if_neg htext, if_neg (by simpa using hws)]
    simp [hemb, exceptBind_ok, h0, exceptPure, exceptMapError_ok]

/-- Witness for the amended C3 at concrete degenerate inputs. -/
theorem degenerate_inputs_zero_result_witness :
    semantic_ats_score unitModel "resume" [] (11/20) = .ok (0, []) ∧
    calculate_keyword_ats_score zeroAts "Empty Role" ["python"] "resume"
      = .ok (0, none) ∧
    semantic_ats_score unitModel "resume" [("python", 0)] (11/20) = .ok (0, []) :=
  ⟨degenerate_inputs_zero_result.1 unitModel "resume" (11/20) (by decide),
   degenerate_inputs_zero_result.2.1 zeroAts "Empty Role" ["python"] "resume"
     zeroRole (of_decide_eq_true (by with_unfolding_all rfl))
     (of_decide_eq_true (by with_unfolding_all rfl)),
   degenerate_inputs_zero_result.2.2 unitModel "resume" [("python", 0)] (11/20)
     [1] (by decide) (by decide)
     (of_decide_eq_true (by with_unfolding_all rfl))
     (of_decide_eq_true (by with_unfolding_all rfl))⟩

/-- Counterexample to C4: with an unavailable model,
`skill_gap.semantic_skill_gap` does not raise — it silently returns the
all-missing default `([], required_skills)`. -/
theorem skill_gap_swallows_model_error :
    failModel ["resume"] = .error "model unavailable" ∧
    SkillGap.semantic_skill_gap failModel "resume" ["python"] (11/20)
      = ([], ["python"]) :=
  of_decide_eq_true (by with_unfolding_all rfl)

/-- C4 (amended): `semantic_ats_score` propagates a model failure to its
caller as a re-raised error; `skill_gap.semantic_skill_gap`, by contrast,
catches every error and silently returns the `([], required_skills)`
default. -/
theorem model_error_handling :
    (∀ (m : Model) (text : String) (ws : List (String × ℚ)) (thr : ℚ) (e : String),
        text ≠ "" → ws ≠ [] → m [text] = .error e →
      semantic_ats_score m text ws thr
        = .error ("Semantic ATS scoring failed: "
            ++ ("Embedding generation failed: " ++ e))) ∧
    (∀ (m : Model) (text : String) (skills : List String) (thr : ℚ) (e : String),
        m [text] = .error e →
      SkillGap.semantic_skill_gap m text skills thr = ([], skills)) := by
  have hsingle : ∀ (m : Model) (text : String) (e : String), m [text] = .error e →
      embed_single m text = .error ("Embedding generation failed: " ++ e) := by
    intro m text e hm
    unfold embed_single embed_list
    simp [hm, exceptMapError_error, exceptBind_error]
  constructor
  · intro m text ws thr e htext hws hm
    unfold semantic_ats_score
    rw [if_neg htext, if_neg (by simpa using hws)]
    simp [hsingle m text e hm, exceptBind_error, exceptMapError_error]
  · intro m text skills thr e hm
    unfold SkillGap.semantic_skill_gap
    split_ifs with hcond
    · rfl
    · simp [hsingle m text e hm, exceptBind_error]

/-- Witness for the amended C4 with a concretely failing model. -/
theorem model_error_handling_witness :
    semantic_ats_score failModel "resume" [("python", 50)] (11/20)
      = .error ("Semantic ATS scoring failed: "
          ++ ("Embedding generation failed: " ++ "model unavailable")) ∧
    SkillGap.semantic_skill_gap failModel "resume" ["sql"] (11/20)
      = ([], ["sql"]) :=
  ⟨model_error_handling.1 failModel "resume" [("python", 50)] (11/20)
     "model unavailable" (by decide) (by decide) rfl,
   model_error_handling.2 failModel "resume" ["sql"] (11/20)
     "model unavailable" rfl⟩

theorem gapLoop_foldl_eq (rv : Vec) (thr : ℚ) :
    ∀ (pairs : List (String × Vec)) (acc : List (String × ℚ) × List String),
      pairs.foldl
        (fun acc p =>
          if thr ≤ cosine_similarity rv p.2 then
            (acc.1 ++ [(p.1, pyRoundTo 1 (cosine_similarity rv p.2 * 100))], acc.2)
          else (acc.1, acc.2 ++ [p.1])) acc
      = (acc.1 ++ (pairs.filter
            (fun p => decide (thr ≤ cosine_similarity rv p.2))).map
            (fun p => (p.1, pyRoundTo 1 (cosine_similarity rv p.2 * 100))),
         acc.2 ++ (pairs.filter
            (fun p => !decide (thr ≤ cosine_similarity rv p.2))).map Prod.fst)
  | [], acc => by simp
  | p :: t, acc => by
    have ih := gapLoop_foldl_eq rv thr t
    by_cases h : thr ≤ cosine_similarity rv p.2
    · simp only [List.foldl_cons, if_pos h]
      rw [ih]
      simp [List.filter_cons, h, List.append_assoc]
    · simp only [List.foldl_cons, if_neg h]
      rw [ih]
      simp [List.filter_cons, h, List.append_assoc]

theorem gapLoop_eq (rv : Vec) (thr : ℚ) (pairs : List (String × Vec)) :
    SkillGap.gapLoop rv thr pairs
      = ((pairs.filter (fun p => decide (thr ≤ cosine_similarity rv p.2))).map
          (fun p => (p.1, pyRoundTo 1 (cosine_similarity rv p.2 * 100))),
         (pairs.filter
            (fun p => !decide (thr ≤ cosine_similarity rv p.2))).map Prod.fst) := by
  unfold SkillGap.gapLoop
  rw [gapLoop_foldl_eq]
  simp

theorem gapLoop_partition (rv : Vec) (thr : ℚ) (skills : List String)
    (vecs : List Vec) (hlen : skills.length ≤ vecs.length) :
    ((SkillGap.gapLoop rv thr (skills.zip vecs)).1.map Prod.fst
      ++ (SkillGap.gapLoop rv thr (skills.zip vecs)).2).Perm skills := by
  rw [gapLoop_eq]
  have hm : (((skills.zip vecs).filter
        (fun p => decide (thr ≤ cosine_similarity rv p.2))).map
        (fun p => (p.1, pyRoundTo 1 (cosine_similarity rv p.2 * 100)))).map Prod.fst
      = ((skills.zip vecs).filter
        (fun p => decide (thr ≤ cosine_similarity rv p.2))).map Prod.fst := by
    rw [List.map_map]
    rfl
  have hperm := (List.filter_append_perm
    (fun p => decide (thr ≤ cosine_similarity rv p.2)) (skills.zip vecs)).map Prod.fst
  rw [List.map_append, List.map_fst_zip skills vecs hlen] at hperm
  simpa [hm, List.map_append] using hperm

theorem exceptMapError_eq_ok {α : Type} {f : String → String}
    {x : Except String α} {a : α}
    (h : Except.mapError f x = .ok a) : x = .ok a := by
  cases x with
  | error e => exact Except.noConfusion h
  | ok b => rw [exceptMapError_ok] at h; exact h

theorem embed_list_length (m : Model) (hwf : ModelWF m) (ts : List String)
    (vs : List Vec) (h : embed_list m ts = .ok vs) : vs.length = ts.length := by
  unfold embed_list at h
  split_ifs at h with he
  · have : ts = [] := List.isEmpty_iff.mp he
    subst this
    cases h
    rfl
  · exact hwf ts vs (exceptMapError_eq_ok h)

/-- Lemma: `ModelWF` holds of the toy unit-vector backend. -/
theorem unitModelWF : ModelWF unitModel := by
  intro ts vs h
  simp only [unitModel, Except.ok.injEq] at h
  rw [← h]
  simp

/-- C5: for every resume text, required-skill list and threshold in
`[0, 1]`, the skill names of `matched` together with `missing` form
exactly the input `required_skills` (as a permutation, hence no
duplicates beyond the input's own and no omissions) — proved for both
`skill_gap.semantic_skill_gap` and the older
`semantic_skill_gap.semantic_skill_gap`, for any well-formed model. -/
theorem skill_gap_partition_spec (m : Model) (text : String)
    (skills : List String) (thr : ℚ) (hwf : ModelWF m)
    (h0 : 0 ≤ thr) (h1 : thr ≤ 1) :
    (((SkillGap.semantic_skill_gap m text skills thr).1.map Prod.fst)
      ++ (SkillGap.semantic_skill_gap m text skills thr).2).Perm skills ∧
    (∀ matched missing,
      SemanticSkillGapV0.semantic_skill_gap m text skills thr
        = .ok (matched, missing) →
      ((matched.map Prod.fst) ++ missing).Perm skills) := by
  constructor
  · unfold SkillGap.semantic_skill_gap
    split_ifs with hcond
    · simp
    · rcases hrv : embed_single m text with e1 | rv
      · simp [hrv, exceptBind_error]
      · rcases hvs : embed_list m skills with e2 | vecs
        · simp [hrv, hvs, exceptBind_ok, exceptBind_error]
        · simp only [hrv, hvs, exceptBind_ok, exceptPure]
          exact gapLoop_partition rv thr skills vecs
            (le_of_eq (embed_list_length m hwf skills vecs hvs).symm)
  · intro matched missing h
    unfold SemanticSkillGapV0.semantic_skill_gap at h
    rcases hv : embed_list m [text] with e1 | vs
    · simp only [hv, exceptBind_error] at h
      exact Except.noConfusion h
    · simp only [hv, exceptBind_ok] at h
      cases vs with
      | nil =>
        simp only [exceptBind_error] at h
        exact Except.noConfusion h
      | cons rv rest =>
        simp only [exceptBind_ok] at h
        rcases hvs : embed_list m skills with e2 | vecs
        · simp only [hvs, exceptBind_error] at h
          exact Except.noConfusion h
        · simp only [hvs, exceptBind_ok, exceptPure, Except.ok.injEq] at h
          rw [show matched = (SkillGap.gapLoop rv thr (skills.zip vecs)).1 by
                rw [h],
              show missing = (SkillGap.gapLoop rv thr (skills.zip vecs)).2 by
                rw [h]]
          exact gapLoop_partition rv thr skills vecs
            (le_of_eq (embed_list_length m hwf skills vecs hvs).symm)

/-- Witness for C5 at a concrete model, resume and skill list. -/
theorem skill_gap_partition_spec_witness :
    ((0:ℚ) ≤ 11/20 ∧ (11/20:ℚ) ≤ 1) ∧
    (((SkillGap.semantic_skill_gap unitModel "resume" ["python", "sql"]
        (11/20)).1.map Prod.fst)
      ++ (SkillGap.semantic_skill_gap unitModel "resume" ["python", "sql"]
        (11/20)).2).Perm ["python", "sql"] :=
  ⟨⟨by norm_num, by norm_num⟩,
   (skill_gap_partition_spec unitModel "resume" ["python", "sql"] (11/20)
     unitModelWF (by norm_num) (by norm_num)).1⟩

theorem semanticGainLoop_foldl_eq (ws : List (String × ℚ)) (rv : Vec) (thr : ℚ) :
    ∀ (pairs : List (String × Vec)) (acc : ℚ × List (String × ℚ)),
      pairs.foldl
        (fun acc p =>
          if thr ≤ cosine_similarity rv p.2 then
            (acc.1 + ((ws.lookup p.1).getD 0),
             acc.2 ++ [(p.1, pyRoundTo 1 (cosine_similarity rv p.2 * 100))])
          else acc) acc
      = (acc.1 + ((pairs.filter
            (fun p => decide (thr ≤ cosine_similarity rv p.2))).map
            (fun p => (ws.lookup p.1).getD 0)).sum,
         acc.2 ++ (pairs.filter
            (fun p => decide (thr ≤ cosine_similarity rv p.2))).map
            (fun p => (p.1, pyRoundTo 1 (cosine_similarity rv p.2 * 100))))
  | [], acc => by simp
  | p :: t, acc => by
    have ih := semanticGainLoop_foldl_eq ws rv thr t
    by_cases h : thr ≤ cosine_similarity rv p.2
    · simp only [List.foldl_cons, if_pos h]
      rw [ih]
      simp [List.filter_cons, h, List.append_assoc, add_assoc]
    · simp only [List.foldl_cons, if_neg h]
      rw [ih]
      simp [List.filter_cons, h]

theorem semanticGainLoop_eq (ws : List (String × ℚ)) (rv : Vec) (thr : ℚ)
    (pairs : List (String × Vec)) :
    semanticGainLoop ws rv thr pairs
      = (((pairs.filter
            (fun p => decide (thr ≤ cosine_similarity rv p.2))).map
            (fun p => (ws.lookup p.1).getD 0)).sum,
         (pairs.filter
            (fun p => decide (thr ≤ cosine_similarity rv p.2))).map
            (fun p => (p.1, pyRoundTo 1 (cosine_similarity rv p.2 * 100)))) := by
  unfold semanticGainLoop
  rw [semanticGainLoop_foldl_eq]
  simp

theorem mem_matched_of_le {rv : Vec} {t1 t2 : ℚ} (h12 : t1 ≤ t2)
    (pairs : List (String × Vec)) (s : String)
    (hs : s ∈ ((pairs.filter
        (fun p => decide (t2 ≤ cosine_similarity rv p.2))).map
        (fun p => (p.1, pyRoundTo 1 (cosine_similarity rv p.2 * 100)))).map Prod.fst) :
    s ∈ ((pairs.filter
        (fun p => decide (t1 ≤ cosine_similarity rv p.2))).map
        (fun p => (p.1, pyRoundTo 1 (cosine_similarity rv p.2 * 100)))).map Prod.fst := by
  rcases List.mem_map.mp hs with ⟨q, hq, rfl⟩
  rcases List.mem_map.mp hq with ⟨p, hp, rfl⟩
  rcases List.mem_filter.mp hp with ⟨hpmem, hp2⟩
  have h2 : t2 ≤ cosine_similarity rv p.2 := of_decide_eq_true hp2
  exact List.mem_map.mpr ⟨(p.1, pyRoundTo 1 (cosine_similarity rv p.2 * 100)),
    List.mem_map.mpr ⟨p, List.mem_filter.mpr
      ⟨hpmem, decide_eq_true (le_trans h12 h2)⟩, rfl⟩, rfl⟩

/-- C6: for a fixed resume text and skill set, every skill matched at the
higher threshold `t2` is also matched at the lower threshold `t1` — both
in `skill_gap.semantic_skill_gap` and in the explanation list of
`semantic_ats_score`: raising the threshold can only move skills from
matched to missing. -/
theorem threshold_monotone (m : Model) (text : String) (skills : List String)
    (t1 t2 : ℚ) (h12 : t1 ≤ t2) :
    (∀ s, s ∈ (SkillGap.semantic_skill_gap m text skills t2).1.map Prod.fst →
      s ∈ (SkillGap.semantic_skill_gap m text skills t1).1.map Prod.fst) ∧
    (∀ (ws : List (String × ℚ)) (s2 : ℤ) (ex2 : List (String × ℚ))
        (s1 : ℤ) (ex1 : List (String × ℚ)),
      semantic_ats_score m text ws t2 = .ok (s2, ex2) →
      semantic_ats_score m text ws t1 = .ok (s1, ex1) →
      ∀ n ∈ ex2.map Prod.fst, n ∈ ex1.map Prod.fst) := by
  constructor
  · intro s hs
    unfold SkillGap.semantic_skill_gap at hs ⊢
    split_ifs at hs ⊢ with hcond
    · simp at hs
    · rcases hrv : embed_single m text with e1 | rv
      · simp [hrv, exceptBind_error] at hs
      · rcases hvs : embed_list m skills with e2 | vecs
        · simp [hrv, hvs, exceptBind_ok, exceptBind_error] at hs
        · simp only [hrv, hvs, exceptBind_ok, exceptPure] at hs ⊢
          rw [gapLoop_eq] at hs ⊢
          exact mem_matched_of_le h12 (skills.zip vecs) s hs
  · intro ws s2 ex2 s1 ex1 h2 h1 n hn
    unfold semantic_ats_score at h2 h1
    by_cases hta : text = ""
    · rw [if_pos hta] at h2
      exact Except.noConfusion h2
    · rw [if_neg hta] at h2 h1
      by_cases htb : ws.isEmpty
      · rw [if_pos htb] at h2
        simp only [Except.ok.injEq, Prod.mk.injEq] at h2
        rw [← h2.2] at hn
        simp at hn
      · rw [if_neg htb] at h2 h1
        rcases hrv : embed_single m text with e1 | rv
        · simp only [hrv, exceptBind_error, exceptMapError_error] at h2
          exact Except.noConfusion h2
        · simp only [hrv, exceptBind_ok] at h2 h1
          by_cases hw0 : (ws.map Prod.snd).sum = 0
          · rw [if_pos hw0] at h2
            simp only [exceptPure, exceptMapError_ok, Except.ok.injEq,
              Prod.mk.injEq] at h2
            rw [← h2.2] at hn
            simp at hn
          · rw [if_neg hw0] at h2 h1
            rcases hvs : embed_list m (ws.map Prod.fst) with e2 | vecs
            · simp only [hvs, exceptBind_error, exceptMapError_error] at h2
              exact Except.noConfusion h2
            · simp only [hvs, exceptBind_ok, exceptPure, exceptMapError_ok,
                Except.ok.injEq, Prod.mk.injEq] at h2 h1
              rw [← h2.2] at hn
              rw [← h1.2]
              rw [semanticGainLoop_eq] at hn ⊢
              exact mem_matched_of_le h12 ((ws.map Prod.fst).zip vecs) n hn

/-- Witness for C6 at concrete thresholds 0.5 ≤ 0.55. -/
theorem threshold_monotone_witness :
    "python" ∈ (SkillGap.semantic_skill_gap unitModel "resume" ["python"]
        (1/2)).1.map Prod.fst ∧
    "python" ∈ ([(("python" : String), (100:ℚ))].map Prod.fst) := by
  constructor
  · exact (threshold_monotone unitModel "resume" ["python"] (1/2) (11/20)
      (by norm_num)).1 "python" (of_decide_eq_true (by with_unfolding_all rfl))
  · exact (threshold_monotone unitModel "resume" ["python"] (1/2) (11/20)
      (by norm_num)).2 [("python", 50)] 100 [("python", 100)] 100 [("python", 100)]
      (of_decide_eq_true (by with_unfolding_all rfl))
      (of_decide_eq_true (by with_unfolding_all rfl))
      "python" (of_decide_eq_true (by with_unfolding_all rfl))

theorem odMem_iff (k : String) (d : List (String × Vec)) :
    odMem k d = true ↔ k ∈ d.map Prod.fst := by
  unfold odMem
  rw [List.any_eq_true]
  constructor
  · rintro ⟨p, hp, hpk⟩
    exact List.mem_map.mpr ⟨p, hp, by simpa using hpk⟩
  · intro hk
    rcases List.mem_map.mp hk with ⟨p, hp, rfl⟩
    exact ⟨p, hp, by simp⟩

theorem odLookup_isSome_of_mem (k : String) (d : List (String × Vec))
    (h : odMem k d = true) : ∃ v, odLookup k d = some v := by
  unfold odMem at h
  unfold odLookup
  rw [List.any_eq_true] at h
  rcases h with ⟨p, hp, hpk⟩
  have : (d.find? (fun p => p.1 == k)).isSome := by
    rw [List.find?_isSome]
    exact ⟨p, hp, hpk⟩
  rcases Option.isSome_iff_exists.mp this with ⟨q, hq⟩
  exact ⟨q.2, by rw [hq]; rfl⟩

/-- C7: on a cache filled to exactly the capacity with distinct keys,
setting one more new text evicts exactly the least-recently-used (first)
entry and appends the new one — no other entry is touched — and a
subsequent `get` on the evicted key reports absent; moreover a `get` hit
always promotes the hit entry to the most-recently-used end. -/
theorem cache_lru_eviction (hash : String → String) (cap : ℕ) (k0 : String)
    (v0 : Vec) (rest : List (String × Vec)) (hits misses sz : ℕ)
    (t : String) (emb : Vec)
    (hnd : (((k0, v0) :: rest).map Prod.fst).Nodup)
    (hlen : ((k0, v0) :: rest).length = cap)
    (hnew : hash t ∉ ((k0, v0) :: rest).map Prod.fst) :
    (set_cached_embedding hash cap t emb
        ⟨(k0, v0) :: rest, hits, misses, sz⟩).entries
      = rest ++ [(hash t, emb)] ∧
    (∀ t0, hash t0 = k0 →
      (get_cached_embedding hash t0 (set_cached_embedding hash cap t emb
          ⟨(k0, v0) :: rest, hits, misses, sz⟩)).1 = none) ∧
    (∀ (s : CacheState) (t1 : String), odMem (hash t1) s.entries = true →
      ((get_cached_embedding hash t1 s).2.entries.map Prod.fst).getLast?
        = some (hash t1)) := by
  have hk0ne : k0 ≠ hash t := by
    intro hcontra
    exact hnew (hcontra ▸ List.mem_map.mpr ⟨(k0, v0), List.mem_cons_self _ _, rfl⟩)
  have hmemrest : odMem (hash t) rest = false := by
    rw [← Bool.not_eq_true, odMem_iff]
    intro hc
    exact hnew (List.mem_map.mp hc |>.elim
      (fun p hp => List.mem_map.mpr ⟨p, List.mem_cons_of_mem _ hp.1, hp.2⟩))
  have hentries : (set_cached_embedding hash cap t emb
      ⟨(k0, v0) :: rest, hits, misses, sz⟩).entries = rest ++ [(hash t, emb)] := by
    unfold set_cached_embedding
    simp only [ENABLE_CACHE]
    rw [if_pos trivial]
    dsimp only
    rw [if_pos (le_of_eq hlen.symm)]
    unfold odAssign odPopFirst
    rw [List.tail_cons, if_neg (by simp [hmemrest])]
  refine ⟨hentries, ?_, ?_⟩
  · intro t0 ht0
    have hout : odMem k0 (rest ++ [(hash t, emb)]) = false := by
      rw [← Bool.not_eq_true, odMem_iff]
      intro hc
      rw [List.map_append, List.mem_append] at hc
      rcases hc with hc | hc
      · exact (List.nodup_cons.mp (by simpa using hnd)).1 hc
      · simp at hc
        exact hk0ne hc
    unfold get_cached_embedding
    simp only [ENABLE_CACHE]
    rw [if_pos trivial]
    rw [hentries, ht0, hout]
    simp
  · intro s t1 hmem
    rcases odLookup_isSome_of_mem (hash t1) s.entries hmem with ⟨v, hv⟩
    unfold get_cached_embedding
    simp only [ENABLE_CACHE]
    rw [if_pos trivial]
    rw [hmem, if_pos rfl]
    dsimp only
    unfold odMoveToEnd
    rw [hv]
    simp [List.getLast?_concat]

/-- Witness for C7: a two-entry cache with the identity hash. -/
theorem cache_lru_eviction_witness :
    (set_cached_embedding id 2 "c" [3]
        ⟨[("a", [1]), ("b", [2])], 0, 0, 2⟩).entries
      = [("b", [2]), ("c", [3])] ∧
    (get_cached_embedding id "a" (set_cached_embedding id 2 "c" [3]
        ⟨[("a", [1]), ("b", [2])], 0, 0, 2⟩)).1 = none := by
  have h := cache_lru_eviction id 2 "a" [1] [("b", [2])] 0 0 2 "c" [3]
    (of_decide_eq_true (by with_unfolding_all rfl))
    (of_decide_eq_true (by with_unfolding_all rfl))
    (of_decide_eq_true (by with_unfolding_all rfl))
  exact ⟨h.1, h.2.1 "a" rfl⟩

/-- Counterexample to C8: after one hit and one miss the module reports
`hit_rate = 50` — the rounded percentage — not the ratio
`hits / (hits + misses) = 1/2` the claim states. -/
theorem hit_rate_is_percentage :
    (get_cache_stats 2 (runOps id 2
        [CacheOp.set "a" [1], CacheOp.get "a", CacheOp.get "b"])).hits = 1 ∧
    (get_cache_stats 2 (runOps id 2
        [CacheOp.set "a" [1], CacheOp.get "a", CacheOp.get "b"])).misses = 1 ∧
    (get_cache_stats 2 (runOps id 2
        [CacheOp.set "a" [1], CacheOp.get "a", CacheOp.get "b"])).hit_rate = 50 ∧
    (50 : ℚ) ≠ 1 / (1 + 1) :=
  of_decide_eq_true (by with_unfolding_all rfl)

theorem set_preserves_counters (hash : String → String) (cap : ℕ) (t : String)
    (e : Vec) (s : CacheState) :
    (set_cached_embedding hash cap t e s).hits = s.hits ∧
    (set_cached_embedding hash cap t e s).misses = s.misses := by
  unfold set_cached_embedding
  split_ifs <;> simp

theorem CacheOp_no_gets_counters (hash : String → String) (cap : ℕ) :
    ∀ (ops : List CacheOp) (s : CacheState),
      (∀ op ∈ ops, op.isGet = false) → s.hits = 0 → s.misses = 0 →
      (ops.foldl (applyOp hash cap) s).hits = 0 ∧
      (ops.foldl (applyOp hash cap) s).misses = 0
  | [], s => fun _ hh hm => ⟨hh, hm⟩
  | op :: t, s => by
    intro hops hh hm
    have hop := hops op (List.mem_cons_self _ _)
    have ht : ∀ o ∈ t, o.isGet = false :=
      fun o ho => hops o (List.mem_cons_of_mem _ ho)
    rw [List.foldl_cons]
    cases op with
    | get t0 => simp [CacheOp.isGet] at hop
    | set t0 e =>
        have hp := set_preserves_counters hash cap t0 e s
        exact CacheOp_no_gets_counters hash cap t _ ht
          (by simpa [applyOp, hh] using hp.1)
          (by simpa [applyOp, hm] using hp.2)
    | clear =>
        exact CacheOp_no_gets_counters hash cap t _ ht rfl rfl

/-- C8 (amended): the stats operation reports `hit_rate` as the rounded
PERCENTAGE `round(hits / (hits + misses) * 100, 2)` — not the bare ratio —
and reports `0` when no get requests have been made yet, in particular
after any operation sequence containing no gets. -/
theorem cache_hit_rate_spec :
    (∀ (cap : ℕ) (s : CacheState), 0 < s.hits + s.misses →
      (get_cache_stats cap s).hit_rate
        = pyRoundTo 2 ((s.hits : ℚ) / ((s.hits : ℚ) + (s.misses : ℚ)) * 100)) ∧
    (∀ (hash : String → String) (cap : ℕ) (ops : List CacheOp),
      (∀ op ∈ ops, op.isGet = false) →
      (get_cache_stats cap (runOps hash cap ops)).hit_rate = 0) := by
  have h0 : pyRoundTo 2 0 = 0 := of_decide_eq_true (by with_unfolding_all rfl)
  constructor
  · intro cap s h
    unfold get_cache_stats
    dsimp only
    rw [if_pos h, Nat.cast_add]
  · intro hash cap ops hops
    have h := CacheOp_no_gets_counters hash cap ops initCache hops rfl rfl
    unfold get_cache_stats
    dsimp only
    unfold runOps at h ⊢
    rw [h.1, h.2]
    norm_num [h0]

/-- Witness for the amended C8 at a concrete state and operation list. -/
theorem cache_hit_rate_spec_witness :
    (get_cache_stats 10 ⟨[], 1, 1, 0⟩).hit_rate
      = pyRoundTo 2 ((1 : ℚ) / ((1 : ℚ) + (1 : ℚ)) * 100) ∧
    (get_cache_stats 10 (runOps id 10
        [CacheOp.set "a" [1], CacheOp.clear])).hit_rate = 0 :=
  ⟨cache_hit_rate_spec.1 10 ⟨[], 1, 1, 0⟩ (by decide),
   cache_hit_rate_spec.2 id 10 [CacheOp.set "a" [1], CacheOp.clear] (by decide)⟩

/-- C9 (zip-order bug, `skill_matcher.py`): the loop iterates
`zip(resume_vec, skill_vecs)` — pairing the numeric components of the
resume embedding with the skill vectors, not the skill names — and on the
first above-threshold similarity the two-argument `results.append(skill,
...)` raises a TypeError; the corrected loop in `skill_gap.py` on the very
same inputs returns the matched skill-name list the spec requires. -/
theorem skill_matcher_zip_bug :
    SkillMatcher.semantic_match_skills unitModel "python developer" ["python"]
        (11/20)
      = .error "TypeError: append() takes exactly one argument (2 given)" ∧
    SkillGap.semantic_skill_gap unitModel "python developer" ["python"] (11/20)
      = ([("python", 100)], []) :=
  of_decide_eq_true (by with_unfolding_all rfl)

theorem find_map_update (k : String) (v : Vec) :
    ∀ d : List (String × Vec), odMem k d = true →
      odLookup k (d.map (fun p => if p.1 == k then (k, v) else p)) = some v
  | [], h => by simp [odMem] at h
  | p :: t, h => by
    by_cases hpk : (p.1 == k) = true
    · unfold odLookup
      rw [List.map_cons, if_pos hpk, List.find?_cons_of_pos _ (by simp)]
      rfl
    · have hmt : odMem k t = true := by
        unfold odMem at h ⊢
        simpa [List.any_cons, hpk] using h
      have ih := find_map_update k v t hmt
      have hpk' : (p.1 == k) = false := by simpa using hpk
      unfold odLookup at ih ⊢
      rw [List.map_cons, if_neg hpk]
      simp only [List.find?_cons, hpk']
      exact ih

theorem odAssign_map_fst_of_mem (k : String) (v : Vec)
    (d : List (String × Vec)) (h : odMem k d = true) :
    (odAssign k v d).map Prod.fst = d.map Prod.fst := by
  unfold odAssign
  rw [if_pos h, List.map_map]
  apply List.map_congr_left
  intro p _
  show Prod.fst (if (p.1 == k) = true then (k, v) else p) = p.1
  by_cases hpk : (p.1 == k) = true
  · rw [if_pos hpk]
    exact (eq_of_beq hpk).symm
  · rw [if_neg hpk]

theorem odAssign_length_of_mem (k : String) (v : Vec)
    (d : List (String × Vec)) (h : odMem k d = true) :
    (odAssign k v d).length = d.length := by
  unfold odAssign
  rw [if_pos h, List.length_map]

/-- C10: at full capacity, `set` with a text whose key is already present
still evicts the least-recently-used entry before re-assigning the key:
the unrelated LRU entry is lost, the size drops to capacity − 1 even
though no new entry was added, and the existing key holds the new
embedding — both in module-level `set_cached_embedding` and in
`EmbeddingCache.set`. -/
theorem cache_reassign_still_evicts (hash : String → String) (cap : ℕ)
    (k0 : String) (v0 : Vec) (rest : List (String × Vec))
    (hits misses sz : ℕ) (t : String) (emb : Vec)
    (hnd : (((k0, v0) :: rest).map Prod.fst).Nodup)
    (hlen : ((k0, v0) :: rest).length = cap)
    (hmem : hash t ∈ rest.map Prod.fst) :
    ((set_cached_embedding hash cap t emb
        ⟨(k0, v0) :: rest, hits, misses, sz⟩).entries.length = cap - 1 ∧
     odMem k0 (set_cached_embedding hash cap t emb
        ⟨(k0, v0) :: rest, hits, misses, sz⟩).entries = false ∧
     odLookup (hash t) (set_cached_embedding hash cap t emb
        ⟨(k0, v0) :: rest, hits, misses, sz⟩).entries = some emb) ∧
    ((EmbeddingCache.set hash ⟨cap, (k0, v0) :: rest, hits, misses⟩
        t emb).cache.length = cap - 1 ∧
     odMem k0 (EmbeddingCache.set hash ⟨cap, (k0, v0) :: rest, hits, misses⟩
        t emb).cache = false ∧
     odLookup (hash t) (EmbeddingCache.set hash
        ⟨cap, (k0, v0) :: rest, hits, misses⟩ t emb).cache = some emb) := by
  have hmemb : odMem (hash t) rest = true := (odMem_iff _ _).mpr hmem
  have hk0 : k0 ∉ rest.map Prod.fst := (List.nodup_cons.mp (by simpa using hnd)).1
  have hcore : (odAssign (hash t) emb rest).length = rest.length ∧
      odMem k0 (odAssign (hash t) emb rest) = false ∧
      odLookup (hash t) (odAssign (hash t) emb rest) = some emb := by
    refine ⟨odAssign_length_of_mem _ _ _ hmemb, ?_, ?_⟩
    · rw [← Bool.not_eq_true, odMem_iff, odAssign_map_fst_of_mem _ _ _ hmemb]
      exact hk0
    · unfold odAssign
      rw [if_pos hmemb]
      exact find_map_update (hash t) emb rest hmemb
  have hrlen : rest.length = cap - 1 := by
    simp only [List.length_cons] at hlen
    omega
  constructor
  · have hset : (set_cached_embedding hash cap t emb
        ⟨(k0, v0) :: rest, hits, misses, sz⟩).entries
        = odAssign (hash t) emb rest := by
      unfold set_cached_embedding
      simp only [ENABLE_CACHE]
      rw [if_pos trivial]
      dsimp only
      rw [if_pos (le_of_eq hlen.symm)]
      rfl
    rw [hset]
    exact ⟨hrlen ▸ hcore.1, hcore.2.1, hcore.2.2⟩
  · have hset : (EmbeddingCache.set hash ⟨cap, (k0, v0) :: rest, hits, misses⟩
        t emb).cache = odAssign (hash t) emb rest := by
      unfold EmbeddingCache.set
      dsimp only
      rw [if_pos (le_of_eq hlen.symm)]
      rfl
    rw [hset]
    exact ⟨hrlen ▸ hcore.1, hcore.2.1, hcore.2.2⟩

/-- Witness for C10: a full 2-entry cache where the re-assigned key is not
the LRU entry. -/
theorem cache_reassign_still_evicts_witness :
    ((set_cached_embedding id 2 "b" [9]
        ⟨[("a", [1]), ("b", [2])], 0, 0, 2⟩).entries.length = 1 ∧
     odMem "a" (set_cached_embedding id 2 "b" [9]
        ⟨[("a", [1]), ("b", [2])], 0, 0, 2⟩).entries = false ∧
     odLookup "b" (set_cached_embedding id 2 "b" [9]
        ⟨[("a", [1]), ("b", [2])], 0, 0, 2⟩).entries = some [9]) ∧
    ((EmbeddingCache.set id ⟨2, [("a", [1]), ("b", [2])], 0, 0⟩
        "b" [9]).cache.length = 1 ∧
     odMem "a" (EmbeddingCache.set id ⟨2, [("a", [1]), ("b", [2])], 0, 0⟩
        "b" [9]).cache = false ∧
     odLookup "b" (EmbeddingCache.set id ⟨2, [("a", [1]), ("b", [2])], 0, 0⟩
        "b" [9]).cache = some [9]) :=
  cache_reassign_still_evicts id 2 "a" [1] [("b", [2])] 0 0 2 "b" [9]
    (of_decide_eq_true (by with_unfolding_all rfl))
    (of_decide_eq_true (by with_unfolding_all rfl))
    (of_decide_eq_true (by with_unfolding_all rfl))
